import Mathlib

/-!
Verification of the job-evaluation pipeline of modules/langgraph_pipeline.py.

The Python module is shallowly embedded: every node function of the LangGraph
workflow becomes a pure Lean function on an explicit PipelineState; the
external world (SQLite store, the three LLM endpoints, the resume file and
the per-stage client configuration) is an explicit Env record of oracle
values; Python floats carrying heuristic scores are modelled as exact
rationals, with round(x, 3) modelled as round-half-to-even at three decimals;
Python exceptions raised by external calls are modelled as Except / Option
oracle fields, routed exactly where the try/except blocks of the source
route them.
-/

/-- Number of set bits of a natural number, written with structural
recursion on a fuel bound so that it evaluates by kernel reduction. -/
def popCountF : Nat → Nat → Nat
  | 0, _ => 0
  | fuel + 1, n => if n = 0 then 0 else n % 2 + popCountF fuel (n / 2)

/-- Number of set bits of a natural number (bin(x).count of the source,
line 122 of langgraph_pipeline.py). -/
def popCount (n : Nat) : Nat :=
  popCountF n n

/-- Hamming distance between two fingerprints:
bin(job_hash_int XOR db_hash_int).count of set bits (source line 122). -/
def hamming_distance (a b : Nat) : Nat :=
  popCount (a ^^^ b)

/-- Decidable equality for the Except values used as store oracles. -/
instance {ε α : Type} [DecidableEq ε] [DecidableEq α] : DecidableEq (Except ε α) := by
  intro a b
  cases a <;> cases b
  case error.error x y =>
    exact if h : x = y then isTrue (by rw [h]) else isFalse (by intro c; cases c; exact h rfl)
  case ok.ok x y =>
    exact if h : x = y then isTrue (by rw [h]) else isFalse (by intro c; cases c; exact h rfl)
  case error.ok x y => exact isFalse (by intro c; cases c)
  case ok.error x y => exact isFalse (by intro c; cases c)

/-- Structured output of the skills-matching stage (pydantic SkillsMatch,
source lines 43-52). The Python field named after the partial-match list is
spelled partialSkills here because its source spelling is a Lean keyword. -/
structure SkillsMatch where
  matched : List String
  partialSkills : List String
  missing : List String
deriving DecidableEq

/-- Input job record. Only the fields the pipeline reads are modelled:
company/title/description feed the fingerprint and the prompts (already
coerced to strings, as safe_str does), min_score models job["_min_score"] and
heuristic_threshold models job["_heuristic_threshold"], the two parameters
process_batch injects into every job dict (source lines 645-646). -/
structure JobData where
  title : String
  company : String
  description : String
  min_score : Int
  heuristic_threshold : ℚ
deriving DecidableEq

/-- One row of the jobs table as seen by check_duplicate_in_database:
the stored fingerprint (NULL modelled as none) and its date_scraped value,
in days, compared against now - 60 (source lines 109-114). -/
structure DBRow where
  job_hash : Option Nat
  dateScraped : Int
deriving DecidableEq

/-- The LangGraph PipelineState TypedDict (source lines 58-75). -/
structure PipelineState where
  job_data : JobData
  job_hash : Option Nat
  is_duplicate : Bool
  extracted_skills : Option (List String)
  match_result : Option SkillsMatch
  heuristic_score : Option ℚ
  llm_score : Option Int
  llm_reasoning : Option String
  error : Option String
  should_continue : Bool
deriving DecidableEq

/-- Round-half-to-even to an integer, the rounding mode of Python round. -/
def roundHalfEven (q : ℚ) : ℤ :=
  if Int.fract q < 1/2 then ⌊q⌋
  else if 1/2 < Int.fract q then ⌊q⌋ + 1
  else if ⌊q⌋ % 2 = 0 then ⌊q⌋ else ⌊q⌋ + 1

/-- Python round(x, 3) on the exact rational value: round-half-to-even at
three decimal places (source line 145). -/
def pyRound3 (q : ℚ) : ℚ :=
  (roundHalfEven (q * 1000) : ℚ) / 1000

/-- Python str.strip() on a character list (whitespace from both ends;
restricted to the ASCII whitespace characters Char.isWhitespace knows). -/
def pyStrip (cs : List Char) : List Char :=
  ((cs.dropWhile Char.isWhitespace).reverse.dropWhile Char.isWhitespace).reverse

/-- Python str.lower().strip() as used on the fingerprint fields. -/
def pyNormalize (s : String) : String :=
  String.mk (pyStrip (s.data.map Char.toLower))

/-- compute_simhash (source lines 94-102): lower-case and trim company, title
and description, join with single spaces, and hash the text. The simhash
library call itself is external; it enters the model as the text-hash
function hf, so that identical normalized text always yields an identical
fingerprint. -/
def compute_simhash (hf : String → Nat) (jd : JobData) : Nat :=
  hf (pyNormalize jd.company ++ " " ++ pyNormalize jd.title ++ " " ++ pyNormalize jd.description)

/-- check_duplicate_in_database (source lines 105-128): among rows whose
job_hash is not NULL and whose date_scraped is within the last 60 days,
report a duplicate when some row's fingerprint is within Hamming distance 6
(HAMMING_THRESHOLD) of the candidate fingerprint. -/
def check_duplicate_in_database (job_hash : Nat) (now : Int) (rows : List DBRow) : Bool :=
  (rows.filter (fun r => r.job_hash.isSome && decide (now - 60 ≤ r.dateScraped))).any
    (fun r => decide (hamming_distance job_hash (r.job_hash.getD 0) ≤ 6))

/-- calculate_heuristic_score (source lines 131-145). The Option argument
models the Python truthiness guard (if not match_result: return 0.0): a
pydantic object is always truthy, None is not. -/
def calculate_heuristic_score : Option SkillsMatch → ℚ
  | none => 0
  | some m =>
    if m.matched.length + m.partialSkills.length + m.missing.length = 0 then 0
    else pyRound3 (((m.matched.length : ℚ) + (1/2) * (m.partialSkills.length : ℚ)) /
      ((m.matched.length + m.partialSkills.length + m.missing.length : ℕ) : ℚ))

/-- Outcome of one dual-strategy LLM call (structured attempt, then JSON
fallback): ok means one of the two attempts produced a validated value,
parseFail means the fallback answered but its JSON failed validation (the
ValidationError branch that degrades to an empty value), exc means an
exception escaped both attempts and reaches the enclosing except block. -/
inductive LLMOutcome (α : Type) where
  | ok (value : α)
  | parseFail
  | exc (msg : String)
deriving DecidableEq

/-- Oracle record for everything external one pipeline task touches:
the dedup store (now and the opened rows, or the exception the open/query
raised), per-stage client presence, per-stage LLM outcomes, resume-file
presence, the raw scoring completion (or its exception), the exception of
the save-time store open/insert, and a task-level exception that escapes the
whole workflow invocation (converted by asyncio.gather(return_exceptions)
into a per-job error result). -/
structure Env where
  now : Int
  dbOpen : Except String (List DBRow)
  extractClient : Bool
  extractOutcome : LLMOutcome (List String)
  matchClient : Bool
  matchOutcome : LLMOutcome SkillsMatch
  scoreClient : Bool
  resumeExists : Bool
  scoringResult : Except String String
  saveDbExc : Option String
  taskExc : Option String
deriving DecidableEq

/-- Node 1: simhash_deduplication (source lines 161-191). The fingerprint is
stored into the state first; then the store is opened and queried (any
exception there lands in the except block: error set, should_continue
false); a detected duplicate stops the pipeline without error. -/
def simhash_deduplication (hf : String → Nat) (env : Env) (s : PipelineState) : PipelineState :=
  match env.dbOpen with
  | Except.error e =>
    { s with job_hash := some (compute_simhash hf s.job_data),
             error := some ("Deduplication failed: " ++ e), should_continue := false }
  | Except.ok rows =>
    if check_duplicate_in_database (compute_simhash hf s.job_data) env.now rows then
      { s with job_hash := some (compute_simhash hf s.job_data),
               is_duplicate := true, should_continue := false }
    else
      { s with job_hash := some (compute_simhash hf s.job_data),
               is_duplicate := false, should_continue := true }

/-- Node 2: skills_extraction (source lines 194-285). Skipped when
should_continue is already false; an empty or sub-100-character description
short-circuits to an empty skill list; a missing client is an error; the
dual-strategy LLM call either yields a validated list, degrades to an empty
list on a final ValidationError, or raises into the except block. -/
def skills_extraction (env : Env) (s : PipelineState) : PipelineState :=
  if !s.should_continue then s
  else if s.job_data.description.length < 100 then
    { s with extracted_skills := some [] }
  else if !env.extractClient then
    { s with error := some "LLM client not configured", should_continue := false }
  else
    match env.extractOutcome with
    | LLMOutcome.ok skills => { s with extracted_skills := some skills }
    | LLMOutcome.parseFail => { s with extracted_skills := some [] }
    | LLMOutcome.exc e =>
      { s with error := some ("Skills extraction failed: " ++ e), should_continue := false }

/-- Empty match result, SkillsMatch(matched=[], partial=[], missing=[]). -/
def emptyMatch : SkillsMatch := ⟨[], [], []⟩

/-- Node 3: skills_matching (source lines 288-393). Skipped when
should_continue is false; with no extracted skills (None or []) it writes an
empty match result and heuristic score 0.0 before any client check or model
call; otherwise the dual-strategy call yields a validated SkillsMatch,
degrades to the empty one on ValidationError, or raises into the except
block. The candidate-skills file only feeds the prompt text and therefore
does not appear in the state model. -/
def skills_matching (env : Env) (s : PipelineState) : PipelineState :=
  if !s.should_continue then s
  else if (s.extracted_skills.getD []).isEmpty then
    { s with match_result := some emptyMatch, heuristic_score := some 0 }
  else if !env.matchClient then
    { s with error := some "LLM client not configured", should_continue := false }
  else
    match env.matchOutcome with
    | LLMOutcome.ok m =>
      { s with match_result := some m,
               heuristic_score := some (calculate_heuristic_score (some m)) }
    | LLMOutcome.parseFail =>
      { s with match_result := some emptyMatch,
               heuristic_score := some (calculate_heuristic_score (some emptyMatch)) }
    | LLMOutcome.exc e =>
      { s with error := some ("Skills matching failed: " ++ e), should_continue := false }

/-- Node 4: heuristic_filter (source lines 396-409): strict less-than
against job_data["_heuristic_threshold"]. The state.get default 0.0 is
modelled by getD 0; on every path that reaches the comparison with
should_continue true the matching stage has already written a score. -/
def heuristic_filter (s : PipelineState) : PipelineState :=
  if !s.should_continue then s
  else if s.heuristic_score.getD 0 < s.job_data.heuristic_threshold then
    { s with should_continue := false }
  else
    { s with should_continue := true }

/-- Whitespace class of the regex metacharacter backslash-s, restricted to
its ASCII members. -/
def isPySpace (c : Char) : Bool :=
  c = ' ' || c = '\t' || c = '\n' || c = '\r' || c.toNat = 11 || c.toNat = 12

/-- Case-insensitive literal match: the pattern (given in lower case)
against a prefix of the input; returns the rest of the input on success. -/
def matchKeyword : List Char → List Char → Option (List Char)
  | [], rest => some rest
  | _ :: _, [] => none
  | p :: ps, c :: cs => if c.toLower = p then matchKeyword ps cs else none

/-- Value of the maximal leading ASCII digit run, with accumulator. -/
def digitsToNat (acc : Nat) : List Char → Nat
  | [] => acc
  | c :: cs => if c.isDigit then digitsToNat (acc * 10 + (c.toNat - 48)) cs else acc

/-- Try the whole pattern SCORE colon, optional whitespace, one-plus digits
at the current position, returning the parsed integer. -/
def matchScoreAt (cs : List Char) : Option Nat :=
  match matchKeyword ['s', 'c', 'o', 'r', 'e', ':'] cs with
  | none => none
  | some rest =>
    match rest.dropWhile isPySpace with
    | [] => none
    | c :: cs2 => if c.isDigit then some (digitsToNat 0 (c :: cs2)) else none

/-- re.search of SCORE colon backslash-s-star digits, IGNORECASE: leftmost
position where the whole pattern matches (source line 467). -/
def findScore : List Char → Option Nat
  | [] => none
  | c :: cs =>
    match matchScoreAt (c :: cs) with
    | some n => some n
    | none => findScore cs

/-- Try REASONING colon at the current position. With DOTALL the group
backslash-s-star dot-plus captures the entire remainder as long as it is
nonempty; after strip() that equals the trimmed remainder. -/
def matchReasoningAt (cs : List Char) : Option (List Char) :=
  match matchKeyword ['r', 'e', 'a', 's', 'o', 'n', 'i', 'n', 'g', ':'] cs with
  | none => none
  | some [] => none
  | some (c :: rest) => some (c :: rest)

/-- re.search of REASONING colon backslash-s-star dot-plus, IGNORECASE and
DOTALL: leftmost position where the whole pattern matches (source line 472),
returning the remainder of the text. -/
def findReasoning : List Char → Option (List Char)
  | [] => none
  | c :: cs =>
    match matchReasoningAt (c :: cs) with
    | some r => some r
    | none => findReasoning cs

/-- The response parsing of job_scoring (source lines 460-476): score
defaults to 0, reasoning defaults to the sentinel; a SCORE match overwrites
the score with the parsed integer clamped by max(1, min(10, score)); a
REASONING match overwrites the reasoning with the stripped group. -/
def parse_scoring_response (content : String) : Int × String :=
  (match findScore content.data with
   | some n => max 1 (min 10 (n : Int))
   | none => 0,
   match findReasoning content.data with
   | some rest => String.mk (pyStrip rest)
   | none => "Unable to parse response")

/-- Node 5: job_scoring (source lines 412-491). Skipped when
should_continue is false; a missing client or missing resume file stops the
posting with an error; an exception from the completion call lands in the
except block; otherwise the response text is parsed into score and
reasoning. -/
def job_scoring (env : Env) (s : PipelineState) : PipelineState :=
  if !s.should_continue then s
  else if !env.scoreClient then
    { s with error := some "LLM client not configured", should_continue := false }
  else if !env.resumeExists then
    { s with error := some "Resume file not found", should_continue := false }
  else
    match env.scoringResult with
    | Except.error e =>
      { s with error := some ("Job scoring failed: " ++ e), should_continue := false }
    | Except.ok content =>
      { s with llm_score := some (parse_scoring_response content).1,
               llm_reasoning := some (parse_scoring_response content).2 }

/-- Record handed to db.insert_job by save_job (source lines 507-535),
restricted to the pipeline-computed fields; the JSON serialization of the
skill lists and the passthrough of the raw job fields are kept as the lists
and the job data themselves. -/
structure JobRecord where
  job_data : JobData
  job_hash : Option Nat
  extracted_skills : List String
  matched_skills : List String
  partialSkills : List String
  missing_skills : List String
  heuristic_score : ℚ
  llm_score : Int
  llm_reasoning : String
deriving DecidableEq

/-- The insert_job argument built from a pipeline state (source 507-535). -/
def mkJobRecord (s : PipelineState) : JobRecord :=
  { job_data := s.job_data
  , job_hash := s.job_hash
  , extracted_skills := s.extracted_skills.getD []
  , matched_skills := match s.match_result with | some m => m.matched | none => []
  , partialSkills := match s.match_result with | some m => m.partialSkills | none => []
  , missing_skills := match s.match_result with | some m => m.missing | none => []
  , heuristic_score := s.heuristic_score.getD 0
  , llm_score := s.llm_score.getD 0
  , llm_reasoning := s.llm_reasoning.getD "" }

/-- What the save stage did, beyond returning the state: skipped when the
score was below the minimum, failed when a Python exception (a None score
reaching the comparison, or a store error) was caught by its blanket except,
saved with the inserted record otherwise, notReached when the graph ended
before the save node. -/
inductive SaveOutcome where
  | notReached
  | skipped
  | failed (msg : String)
  | saved (rec : JobRecord)
deriving DecidableEq

/-- Node 6: save_job (source lines 494-546). The whole body is wrapped in
try/except with a bare log in the handler, so the state is returned
unchanged on every path. state.get("llm_score", 0) yields the stored None
when scoring never ran (the key is always present in the TypedDict), and
None less-than min_score raises TypeError into the except block; otherwise a
score below job_data["_min_score"] returns before any store access, and an
exception from the store open/insert is swallowed. -/
def save_job (env : Env) (s : PipelineState) : PipelineState × SaveOutcome :=
  match s.llm_score with
  | none => (s, SaveOutcome.failed "TypeError: '<' not supported between instances of 'NoneType' and 'int'")
  | some sc =>
    if sc < s.job_data.min_score then (s, SaveOutcome.skipped)
    else
      match env.saveDbExc with
      | some e => (s, SaveOutcome.failed e)
      | none => (s, SaveOutcome.saved (mkJobRecord s))

/-- The initial PipelineState process_batch builds for each non-duplicate
job (source lines 666-682). -/
def initState (jd : JobData) : PipelineState :=
  { job_data := jd
  , job_hash := none
  , is_duplicate := false
  , extracted_skills := none
  , match_result := none
  , heuristic_score := none
  , llm_score := none
  , llm_reasoning := none
  , error := none
  , should_continue := true }

/-- State after the simhash_deduplication node, starting from the initial
state for jd. -/
def afterDedup (hf : String → Nat) (env : Env) (jd : JobData) : PipelineState :=
  simhash_deduplication hf env (initState jd)

/-- State after the skills_extraction node. -/
def afterExtraction (hf : String → Nat) (env : Env) (jd : JobData) : PipelineState :=
  skills_extraction env (afterDedup hf env jd)

/-- State after the skills_matching node. -/
def afterMatching (hf : String → Nat) (env : Env) (jd : JobData) : PipelineState :=
  skills_matching env (afterExtraction hf env jd)

/-- State after the heuristic_filter node. -/
def afterFilter (hf : String → Nat) (env : Env) (jd : JobData) : PipelineState :=
  heuristic_filter (afterMatching hf env jd)

/-- State after the job_scoring node. -/
def afterScoring (hf : String → Nat) (env : Env) (jd : JobData) : PipelineState :=
  job_scoring env (afterFilter hf env jd)

/-- One workflow.ainvoke on the graph built by create_pipeline (source lines
552-585): entry at dedup; conditional edge to END when is_duplicate, else
through extraction, matching and the filter; conditional edge to scoring
when should_continue else END; then save and END. Returns the final state
and what the save node did. -/
def run_pipeline (hf : String → Nat) (env : Env) (jd : JobData) : PipelineState × SaveOutcome :=
  if (afterDedup hf env jd).is_duplicate then (afterDedup hf env jd, SaveOutcome.notReached)
  else if (afterFilter hf env jd).should_continue then save_job env (afterScoring hf env jd)
  else (afterFilter hf env jd, SaveOutcome.notReached)

/-- Per-posting batch output (source lines 654-661, 693-700, 772-779). -/
structure BatchResult where
  status : String
  reason : String
  heuristic_score : ℚ
  llm_score : Int
  skills_extracted : Nat
  skills_matched : Nat
deriving DecidableEq

/-- LangGraphPipeline._format_result (source lines 742-779). The state.get
defaults and the or-coalescing of None scores are modelled by getD. -/
def format_result (s : PipelineState) (min_score : Int) (heuristic_threshold : ℚ) : BatchResult :=
  { status :=
      if s.is_duplicate then "duplicate"
      else if s.error.isSome then "error"
      else if s.heuristic_score.getD 0 < heuristic_threshold then "rejected"
      else if s.llm_score.getD 0 < min_score then "low_score"
      else "accepted"
  , reason :=
      if s.is_duplicate then "Duplicate in database"
      else if s.error.isSome then s.error.getD ""
      else if s.heuristic_score.getD 0 < heuristic_threshold then
        "Heuristic score too low: " ++ toString (s.heuristic_score.getD 0) ++
          " (threshold: " ++ toString heuristic_threshold ++ ")"
      else if s.llm_score.getD 0 < min_score then
        "LLM score below minimum: " ++ toString (s.llm_score.getD 0)
      else "High score: " ++ toString (s.llm_score.getD 0)
  , heuristic_score := s.heuristic_score.getD 0
  , llm_score := s.llm_score.getD 0
  , skills_extracted := (s.extracted_skills.getD []).length
  , skills_matched := match s.match_result with | some m => m.matched.length | none => 0 }

/-- The fixed result recorded for an in-batch duplicate (source 654-661). -/
def batchDuplicateResult : BatchResult :=
  { status := "duplicate"
  , reason := "Duplicate in current batch"
  , heuristic_score := 0
  , llm_score := 0
  , skills_extracted := 0
  , skills_matched := 0 }

/-- The result recorded when asyncio.gather hands back an exception instead
of a final state (source lines 691-700). -/
def taskErrorResult (e : String) : BatchResult :=
  { status := "error"
  , reason := e
  , heuristic_score := 0
  , llm_score := 0
  , skills_extracted := 0
  , skills_matched := 0 }

/-- The parameter injection job["_min_score"] = min_score and
job["_heuristic_threshold"] = heuristic_threshold (source lines 645-646). -/
def setParams (min_score : Int) (th : ℚ) (jd : JobData) : JobData :=
  { jd with min_score := min_score, heuristic_threshold := th }

/-- Result of one dispatched workflow task, as collected by gather with
return_exceptions=True: an escaped exception becomes an error result,
otherwise the final state is formatted. -/
def pipelineResult (hf : String → Nat) (m : Int) (th : ℚ) (jd : JobData) (env : Env) : BatchResult :=
  match env.taskExc with
  | some e => taskErrorResult e
  | none => format_result (run_pipeline hf env jd).1 m th

/-- Fuel-indexed chunking, structurally recursive so that it evaluates by
kernel reduction; the fuel is an upper bound on the list length. -/
def chunkedF {α : Type} : Nat → Nat → List α → List (List α)
  | 0, _, _ => []
  | fuel + 1, size, xs =>
    if size = 0 ∨ xs.isEmpty then []
    else xs.take size :: chunkedF fuel size (xs.drop size)

/-- chunked (source lines 591-595): islice chunks of the requested size; a
size of zero yields an empty first slice and therefore no chunks at all. -/
def chunked {α : Type} (size : Nat) (xs : List α) : List (List α) :=
  chunkedF xs.length size xs

/-- The sequential first pass over a chunk (source lines 643-682): for each
job, inject the parameters, compute the fingerprint, and either record an
immediate duplicate result at the job's position (fingerprint already in
seen_hashes) or claim the fingerprint and keep the job, with its position,
for dispatch. -/
def markDuplicates (hf : String → Nat) (m : Int) (th : ℚ) :
    List Nat → List (JobData × Env) → List Nat × List (Sum BatchResult (JobData × Env))
  | seen, [] => (seen, [])
  | seen, je :: rest =>
    if compute_simhash hf (setParams m th je.1) ∈ seen then
      ((markDuplicates hf m th seen rest).1,
       Sum.inl batchDuplicateResult :: (markDuplicates hf m th seen rest).2)
    else
      ((markDuplicates hf m th (compute_simhash hf (setParams m th je.1) :: seen) rest).1,
       Sum.inr (setParams m th je.1, je.2) ::
         (markDuplicates hf m th (compute_simhash hf (setParams m th je.1) :: seen) rest).2)

/-- Second pass over a chunk: pre-recorded duplicate results stay in place,
dispatched jobs are replaced by their task's result at the same position
(the chunk_results index array of source lines 640, 690-704). -/
def runEntry (hf : String → Nat) (m : Int) (th : ℚ) :
    Sum BatchResult (JobData × Env) → BatchResult
  | Sum.inl r => r
  | Sum.inr je => pipelineResult hf m th je.1 je.2

/-- One chunk of the batch loop: mark in-batch duplicates sequentially, run
the remaining jobs, and collect results in the original positions. -/
def processChunk (hf : String → Nat) (m : Int) (th : ℚ) (seen : List Nat)
    (chunk : List (JobData × Env)) : List Nat × List BatchResult :=
  ((markDuplicates hf m th seen chunk).1,
   (markDuplicates hf m th seen chunk).2.map (runEntry hf m th))

/-- The chunk loop of process_batch (source lines 633-718): chunks run one
after another, extending all_results and threading seen_hashes. -/
def processChunks (hf : String → Nat) (m : Int) (th : ℚ) :
    List Nat → List (List (JobData × Env)) → List BatchResult
  | _, [] => []
  | seen, c :: cs =>
    (processChunk hf m th seen c).2 ++
      processChunks hf m th (processChunk hf m th seen c).1 cs

/-- LangGraphPipeline.process_batch (source lines 605-740). seen_hashes is
cleared on entry; jobs are chunked by batch_size and processed chunk by
chunk. The summary logging at line 733 divides total_time by len(jobs), so a
call on an empty job list raises ZeroDivisionError instead of returning;
every job carries its own Env of external-world outcomes. -/
def process_batch (hf : String → Nat) (jobs : List (JobData × Env)) (min_score : Int)
    (batch_size : Nat) (heuristic_threshold : ℚ) : Except String (List BatchResult) :=
  if jobs.isEmpty then Except.error "ZeroDivisionError: float division by zero"
  else Except.ok (processChunks hf min_score heuristic_threshold [] (chunked batch_size jobs))

/-- Modelled from the spec: the reference result of one posting in input
order — a posting whose fingerprint was already claimed earlier in the call
gets the in-batch duplicate result and claims nothing; otherwise it claims
its fingerprint and contributes its own task's result (spec sections 4.2,
4.9). -/
def processJobSpec (hf : String → Nat) (m : Int) (th : ℚ) (seen : List Nat)
    (je : JobData × Env) : List Nat × BatchResult :=
  if compute_simhash hf (setParams m th je.1) ∈ seen then (seen, batchDuplicateResult)
  else (compute_simhash hf (setParams m th je.1) :: seen,
        pipelineResult hf m th (setParams m th je.1) je.2)

/-- Modelled from the spec: strictly sequential per-posting processing in
input order, threading the claimed-fingerprint set. -/
def processSeq (hf : String → Nat) (m : Int) (th : ℚ) :
    List Nat → List (JobData × Env) → List Nat × List BatchResult
  | seen, [] => (seen, [])
  | seen, je :: rest =>
    ((processSeq hf m th (processJobSpec hf m th seen je).1 rest).1,
     (processJobSpec hf m th seen je).2 ::
       (processSeq hf m th (processJobSpec hf m th seen je).1 rest).2)

/-- Modelled from the spec: one BatchResult per input posting, in input
order, regardless of concurrency (spec section 3, BatchResult). -/
def process_batch_spec (hf : String → Nat) (jobs : List (JobData × Env)) (m : Int)
    (th : ℚ) : List BatchResult :=
  (processSeq hf m th [] jobs).2

/-- Shared concrete text-hash oracle for witness instantiations. -/
def cHf : String → Nat := fun s => s.length

/-- Shared concrete job for witness instantiations: tiny description,
minimum score 0, heuristic threshold 0. -/
def cJd : JobData :=
  { title := "t", company := "c", description := "d", min_score := 0, heuristic_threshold := 0 }

/-- Shared concrete benign environment for witness instantiations. -/
def cEnvBase : Env :=
  { now := 0
  , dbOpen := Except.ok []
  , extractClient := true
  , extractOutcome := LLMOutcome.ok []
  , matchClient := true
  , matchOutcome := LLMOutcome.ok emptyMatch
  , scoreClient := true
  , resumeExists := true
  , scoringResult := Except.ok "SCORE: 9"
  , saveDbExc := none
  , taskExc := none }

/-- A nonnegative argument rounds to a nonnegative integer. -/
lemma roundHalfEven_nonneg (q : ℚ) (h : 0 ≤ q) : 0 ≤ roundHalfEven q := by
  unfold roundHalfEven
  have hf : (0 : ℤ) ≤ ⌊q⌋ := Int.floor_nonneg.mpr h
  split_ifs <;> omega

/-- An argument at most 1000 rounds to at most 1000. -/
lemma roundHalfEven_le_1000 (q : ℚ) (h : q ≤ 1000) : roundHalfEven q ≤ 1000 := by
  unfold roundHalfEven
  have hfl : (⌊q⌋ : ℚ) ≤ q := Int.floor_le q
  have hf1000 : ⌊q⌋ ≤ 1000 := by
    have hc : (⌊q⌋ : ℚ) ≤ 1000 := le_trans hfl h
    exact_mod_cast hc
  have hq : (⌊q⌋ : ℚ) + Int.fract q = q := Int.floor_add_fract q
  split_ifs with h1 h2 h3
  · exact hf1000
  · have hlt : (⌊q⌋ : ℚ) < 1000 := by linarith
    have : ⌊q⌋ < 1000 := by exact_mod_cast hlt
    omega
  · exact hf1000
  · have hfr : Int.fract q = 1 / 2 := le_antisymm (not_lt.mp h2) (not_lt.mp h1)
    have hlt : (⌊q⌋ : ℚ) < 1000 := by rw [hfr] at hq; linarith
    have : ⌊q⌋ < 1000 := by exact_mod_cast hlt
    omega

/-- pyRound3 keeps the unit interval. -/
lemma pyRound3_mem_unit (q : ℚ) (h0 : 0 ≤ q) (h1 : q ≤ 1) :
    0 ≤ pyRound3 q ∧ pyRound3 q ≤ 1 := by
  unfold pyRound3
  have hn : (0 : ℤ) ≤ roundHalfEven (q * 1000) :=
    roundHalfEven_nonneg _ (by nlinarith)
  have hu : roundHalfEven (q * 1000) ≤ 1000 :=
    roundHalfEven_le_1000 _ (by nlinarith)
  constructor
  · apply div_nonneg _ (by norm_num)
    exact_mod_cast hn
  · rw [div_le_one (by norm_num)]
    exact_mod_cast hu

/-- Concrete match result with two matched, one partially matched and one
missing skill. -/
def cMatch211 : SkillsMatch := ⟨["python", "sql"], ["aws"], ["go"]⟩

/-- C4: for every MatchResult the heuristic score is
(matched + 0.5 * partial) / total rounded to three decimals, 0 when the
total is 0, always within the unit interval; matched=2, partial=1, missing=1
gives 0.625 and the all-empty result gives 0.0. -/
theorem c4_heuristic_score_formula :
    (∀ m : SkillsMatch,
      (m.matched.length + m.partialSkills.length + m.missing.length = 0 →
        calculate_heuristic_score (some m) = 0)
      ∧ (m.matched.length + m.partialSkills.length + m.missing.length ≠ 0 →
        calculate_heuristic_score (some m) =
          pyRound3 (((m.matched.length : ℚ) + (1/2) * (m.partialSkills.length : ℚ)) /
            ((m.matched.length + m.partialSkills.length + m.missing.length : ℕ) : ℚ)))
      ∧ 0 ≤ calculate_heuristic_score (some m)
      ∧ calculate_heuristic_score (some m) ≤ 1)
    ∧ calculate_heuristic_score (some cMatch211) = 0.625
    ∧ calculate_heuristic_score (some emptyMatch) = 0 := by
  refine ⟨fun m => ?_, ?_, by decide⟩
  · set a := m.matched.length with ha
    set p := m.partialSkills.length with hp
    set ms := m.missing.length with hms
    refine ⟨fun h0 => by simp [calculate_heuristic_score, ← ha, ← hp, ← hms, h0],
      fun hne => by simp [calculate_heuristic_score, ← ha, ← hp, ← hms, hne], ?_⟩
    by_cases h0 : a + p + ms = 0
    · simp [calculate_heuristic_score, ← ha, ← hp, ← hms, h0]
    · have hq0 : (0 : ℚ) ≤ ((a : ℚ) + (1/2) * (p : ℚ)) / (((a + p + ms : ℕ)) : ℚ) := by
        apply div_nonneg <;> positivity
      have hq1 : ((a : ℚ) + (1/2) * (p : ℚ)) / (((a + p + ms : ℕ)) : ℚ) ≤ 1 := by
        rw [div_le_one (by exact_mod_cast Nat.pos_of_ne_zero h0)]
        push_cast
        have : (0 : ℚ) ≤ (p : ℚ) := by positivity
        have : (0 : ℚ) ≤ (ms : ℚ) := by positivity
        linarith
      have := pyRound3_mem_unit _ hq0 hq1
      simp only [calculate_heuristic_score, ← ha, ← hp, ← hms, if_neg h0]
      exact this
  · norm_num [calculate_heuristic_score, cMatch211, pyRound3, roundHalfEven, Int.fract]

/-- C4 witness: the non-degenerate branch evaluated at the concrete 2/1/1
match result. -/
theorem c4_witness :
    cMatch211.matched.length + cMatch211.partialSkills.length + cMatch211.missing.length ≠ 0
    ∧ calculate_heuristic_score (some cMatch211) =
        pyRound3 (((cMatch211.matched.length : ℚ) + (1/2) * (cMatch211.partialSkills.length : ℚ)) /
          ((cMatch211.matched.length + cMatch211.partialSkills.length + cMatch211.missing.length : ℕ) : ℚ)) :=
  ⟨by decide, ((c4_heuristic_score_formula.1 cMatch211).2.1) (by decide)⟩

/-- Environment whose scoring completion contains a REASONING pattern but no
SCORE pattern. -/
def cEnvReasonOnly : Env := { cEnvBase with scoringResult := Except.ok "REASONING: ok" }

/-- C7 counterexample: on the response REASONING colon ok there is no score
pattern, the stored score is 0, yet the stored reasoning is the parsed
reasoning, not the sentinel string the claim requires for every
score-pattern-free response. -/
theorem c7_counterexample :
    findScore ("REASONING: ok").data = none
    ∧ (job_scoring cEnvReasonOnly (initState cJd)).llm_score = some 0
    ∧ (job_scoring cEnvReasonOnly (initState cJd)).llm_reasoning = some "ok"
    ∧ "ok" ≠ "Unable to parse response" := by decide

/-- C7 amended: the stored score is the parsed integer clamped into [1, 10]
when a SCORE pattern is present and exactly 0 when none is; the reasoning is
the stripped REASONING group when that pattern is present and the sentinel
string only when no REASONING pattern is found; hence the stored score lies
in the set containing 0 and the interval [1, 10]. -/
theorem c7_score_parsing_amended (env : Env) (s : PipelineState) (content : String)
    (hc : s.should_continue = true) (hcl : env.scoreClient = true)
    (hr : env.resumeExists = true) (hok : env.scoringResult = Except.ok content) :
    ((job_scoring env s).llm_score = some (parse_scoring_response content).1
      ∧ (job_scoring env s).llm_reasoning = some (parse_scoring_response content).2)
    ∧ (∀ n, findScore content.data = some n →
        (parse_scoring_response content).1 = max 1 (min 10 (n : Int))
        ∧ 1 ≤ (parse_scoring_response content).1
        ∧ (parse_scoring_response content).1 ≤ 10)
    ∧ (findScore content.data = none → (parse_scoring_response content).1 = 0)
    ∧ (∀ rest, findReasoning content.data = some rest →
        (parse_scoring_response content).2 = String.mk (pyStrip rest))
    ∧ (findReasoning content.data = none →
        (parse_scoring_response content).2 = "Unable to parse response")
    ∧ ((parse_scoring_response content).1 = 0
        ∨ (1 ≤ (parse_scoring_response content).1 ∧ (parse_scoring_response content).1 ≤ 10)) := by
  refine ⟨?_, ?_, ?_, ?_, ?_, ?_⟩
  · simp [job_scoring, hc, hcl, hr, hok]
  · intro n hn
    have h1 : (parse_scoring_response content).1 = max 1 (min 10 (n : Int)) := by
      simp [parse_scoring_response, hn]
    refine ⟨h1, ?_, ?_⟩ <;> rw [h1] <;> omega
  · intro hn
    simp [parse_scoring_response, hn]
  · intro rest hr2
    simp [parse_scoring_response, hr2]
  · intro hr2
    simp [parse_scoring_response, hr2]
  · rcases hsc : findScore content.data with _ | n
    · left; simp [parse_scoring_response, hsc]
    · right
      have h1 : (parse_scoring_response content).1 = max 1 (min 10 (n : Int)) := by
        simp [parse_scoring_response, hsc]
      constructor <;> rw [h1] <;> omega

/-- C7 witness: the amended characterization applied at a concrete response
whose raw score 15 is clamped to 10. -/
theorem c7_witness :
    findScore ("SCORE: 15").data = some 15
    ∧ ((parse_scoring_response "SCORE: 15").1 = max 1 (min 10 (15 : Int))
      ∧ 1 ≤ (parse_scoring_response "SCORE: 15").1
      ∧ (parse_scoring_response "SCORE: 15").1 ≤ 10) :=
  ⟨by decide,
   (c7_score_parsing_amended { cEnvBase with scoringResult := Except.ok "SCORE: 15" }
      (initState cJd) "SCORE: 15" rfl rfl rfl rfl).2.1 15 (by decide)⟩

/-- C5: with continuation true at the gate, the pipeline is terminated
exactly when the heuristic score is strictly below the threshold; a score
equal to the threshold passes, and the batch formatter marks a posting
rejected under exactly the same strict comparison, so an at-threshold
posting is never classified rejected. -/
theorem c5_gate_strict (s : PipelineState) (m : Int) (hc : s.should_continue = true) :
    ((heuristic_filter s).should_continue = false ↔
      s.heuristic_score.getD 0 < s.job_data.heuristic_threshold)
    ∧ (s.heuristic_score.getD 0 = s.job_data.heuristic_threshold →
        (heuristic_filter s).should_continue = true)
    ∧ (s.is_duplicate = false → s.error = none →
        s.heuristic_score.getD 0 < s.job_data.heuristic_threshold →
        (format_result s m s.job_data.heuristic_threshold).status = "rejected")
    ∧ (s.is_duplicate = false → s.error = none →
        ¬ (s.heuristic_score.getD 0 < s.job_data.heuristic_threshold) →
        (format_result s m s.job_data.heuristic_threshold).status ≠ "rejected") := by
  refine ⟨?_, ?_, ?_, ?_⟩
  · by_cases h : s.heuristic_score.getD 0 < s.job_data.heuristic_threshold <;>
      simp [heuristic_filter, hc, h]
  · intro he
    simp [heuristic_filter, hc, he]
  · intro hd herr hlt
    simp [format_result, hd, herr, hlt]
  · intro hd herr hge
    simp only [format_result, hd, herr]
    simp only [Bool.false_eq_true, if_false, Option.isSome_none, if_neg hge]
    split_ifs <;> decide

/-- Concrete at-threshold gate state: heuristic score 0, threshold 0. -/
def cS5 : PipelineState := { initState cJd with heuristic_score := some 0 }

/-- C5 witness: the at-threshold posting passes the gate and is not
classified rejected by the formatter. -/
theorem c5_witness :
    cS5.should_continue = true
    ∧ cS5.heuristic_score.getD 0 = cS5.job_data.heuristic_threshold
    ∧ (heuristic_filter cS5).should_continue = true
    ∧ (format_result cS5 0 cS5.job_data.heuristic_threshold).status ≠ "rejected" :=
  ⟨rfl, rfl, (c5_gate_strict cS5 0 rfl).2.1 rfl,
   (c5_gate_strict cS5 0 rfl).2.2.2 rfl rfl (by decide)⟩

/-- A stopped state passes through the extraction stage unchanged. -/
lemma skills_extraction_skip (env : Env) (s : PipelineState)
    (h : s.should_continue = false) : skills_extraction env s = s := by
  simp [skills_extraction, h]

/-- A stopped state passes through the matching stage unchanged. -/
lemma skills_matching_skip (env : Env) (s : PipelineState)
    (h : s.should_continue = false) : skills_matching env s = s := by
  simp [skills_matching, h]

/-- A stopped state passes through the gate unchanged. -/
lemma heuristic_filter_skip (s : PipelineState)
    (h : s.should_continue = false) : heuristic_filter s = s := by
  simp [heuristic_filter, h]

/-- A stopped state passes through the scoring stage unchanged. -/
lemma job_scoring_skip (env : Env) (s : PipelineState)
    (h : s.should_continue = false) : job_scoring env s = s := by
  simp [job_scoring, h]

/-- Fields the dedup stage never writes. -/
lemma simhash_deduplication_preserve (hf : String → Nat) (env : Env) (s : PipelineState) :
    (simhash_deduplication hf env s).job_data = s.job_data
    ∧ (simhash_deduplication hf env s).extracted_skills = s.extracted_skills
    ∧ (simhash_deduplication hf env s).match_result = s.match_result
    ∧ (simhash_deduplication hf env s).heuristic_score = s.heuristic_score
    ∧ (simhash_deduplication hf env s).llm_score = s.llm_score := by
  unfold simhash_deduplication
  rcases hdb : env.dbOpen with e | rows <;> simp [hdb]
  split_ifs <;> simp

/-- Fields the extraction stage never writes. -/
lemma skills_extraction_preserve (env : Env) (s : PipelineState) :
    (skills_extraction env s).job_data = s.job_data
    ∧ (skills_extraction env s).job_hash = s.job_hash
    ∧ (skills_extraction env s).is_duplicate = s.is_duplicate
    ∧ (skills_extraction env s).match_result = s.match_result
    ∧ (skills_extraction env s).heuristic_score = s.heuristic_score
    ∧ (skills_extraction env s).llm_score = s.llm_score := by
  unfold skills_extraction
  split_ifs <;> try simp
  rcases ho : env.extractOutcome <;> simp [ho]

/-- Fields the matching stage never writes. -/
lemma skills_matching_preserve (env : Env) (s : PipelineState) :
    (skills_matching env s).job_data = s.job_data
    ∧ (skills_matching env s).job_hash = s.job_hash
    ∧ (skills_matching env s).is_duplicate = s.is_duplicate
    ∧ (skills_matching env s).extracted_skills = s.extracted_skills
    ∧ (skills_matching env s).llm_score = s.llm_score := by
  unfold skills_matching
  split_ifs <;> try simp
  rcases ho : env.matchOutcome <;> simp [ho]

/-- The gate only ever writes the continuation flag. -/
lemma heuristic_filter_preserve (s : PipelineState) :
    (heuristic_filter s).job_data = s.job_data
    ∧ (heuristic_filter s).job_hash = s.job_hash
    ∧ (heuristic_filter s).is_duplicate = s.is_duplicate
    ∧ (heuristic_filter s).extracted_skills = s.extracted_skills
    ∧ (heuristic_filter s).match_result = s.match_result
    ∧ (heuristic_filter s).heuristic_score = s.heuristic_score
    ∧ (heuristic_filter s).llm_score = s.llm_score
    ∧ (heuristic_filter s).error = s.error := by
  unfold heuristic_filter
  split_ifs <;> simp

/-- Fields the scoring stage never writes. -/
lemma job_scoring_preserve (env : Env) (s : PipelineState) :
    (job_scoring env s).job_data = s.job_data
    ∧ (job_scoring env s).job_hash = s.job_hash
    ∧ (job_scoring env s).is_duplicate = s.is_duplicate
    ∧ (job_scoring env s).extracted_skills = s.extracted_skills
    ∧ (job_scoring env s).match_result = s.match_result
    ∧ (job_scoring env s).heuristic_score = s.heuristic_score := by
  unfold job_scoring
  split_ifs <;> try simp
  rcases ho : env.scoringResult <;> simp [ho]

/-- A state leaving the extraction stage with continuation true entered with
continuation true. -/
lemma skills_extraction_cont (env : Env) (s : PipelineState)
    (h : (skills_extraction env s).should_continue = true) : s.should_continue = true := by
  by_cases hc : s.should_continue = true
  · exact hc
  · rw [skills_extraction_skip env s (by revert hc; cases s.should_continue <;> simp)] at h
    exact h

/-- A state leaving the matching stage with continuation true entered with
continuation true. -/
lemma skills_matching_cont (env : Env) (s : PipelineState)
    (h : (skills_matching env s).should_continue = true) : s.should_continue = true := by
  by_cases hc : s.should_continue = true
  · exact hc
  · rw [skills_matching_skip env s (by revert hc; cases s.should_continue <;> simp)] at h
    exact h

/-- A state passing the gate entered the gate with continuation true and a
heuristic score not strictly below the threshold, and the gate only
confirmed its continuation flag. -/
lemma heuristic_filter_cont (s : PipelineState)
    (h : (heuristic_filter s).should_continue = true) :
    s.should_continue = true
    ∧ ¬ (s.heuristic_score.getD 0 < s.job_data.heuristic_threshold)
    ∧ heuristic_filter s = { s with should_continue := true } := by
  by_cases hc : s.should_continue = true
  · by_cases hlt : s.heuristic_score.getD 0 < s.job_data.heuristic_threshold
    · exfalso
      simp [heuristic_filter, hc, hlt] at h
    · exact ⟨hc, hlt, by simp [heuristic_filter, hc, hlt]⟩
  · exfalso
    rw [heuristic_filter_skip s (by revert hc; cases s.should_continue <;> simp)] at h
    exact hc h

/-- Dedup outcome when the cross-run check fires. -/
lemma simhash_deduplication_of_dup (hf : String → Nat) (env : Env) (s : PipelineState)
    (rows : List DBRow) (hdb : env.dbOpen = Except.ok rows)
    (hchk : check_duplicate_in_database (compute_simhash hf s.job_data) env.now rows = true) :
    simhash_deduplication hf env s =
      { s with job_hash := some (compute_simhash hf s.job_data),
               is_duplicate := true, should_continue := false } := by
  simp [simhash_deduplication, hdb, hchk]

/-- Dedup outcome when the cross-run check finds nothing. -/
lemma simhash_deduplication_of_new (hf : String → Nat) (env : Env) (s : PipelineState)
    (rows : List DBRow) (hdb : env.dbOpen = Except.ok rows)
    (hchk : check_duplicate_in_database (compute_simhash hf s.job_data) env.now rows = false) :
    simhash_deduplication hf env s =
      { s with job_hash := some (compute_simhash hf s.job_data),
               is_duplicate := false, should_continue := true } := by
  simp [simhash_deduplication, hdb, hchk]

/-- Dedup outcome when the store open or query raises. -/
lemma simhash_deduplication_of_exc (hf : String → Nat) (env : Env) (s : PipelineState)
    (e : String) (hdb : env.dbOpen = Except.error e) :
    simhash_deduplication hf env s =
      { s with job_hash := some (compute_simhash hf s.job_data),
               error := some ("Deduplication failed: " ++ e), should_continue := false } := by
  simp [simhash_deduplication, hdb]

/-- A state leaving dedup with continuation true is not flagged duplicate
and its error field is untouched. -/
lemma simhash_deduplication_cont (hf : String → Nat) (env : Env) (s : PipelineState)
    (h : (simhash_deduplication hf env s).should_continue = true) :
    (simhash_deduplication hf env s).is_duplicate = false
    ∧ (simhash_deduplication hf env s).error = s.error := by
  rcases hdb : env.dbOpen with e | rows
  · rw [simhash_deduplication_of_exc hf env s e hdb] at h
    simp at h
  · cases hchk : check_duplicate_in_database (compute_simhash hf s.job_data) env.now rows
    · rw [simhash_deduplication_of_new hf env s rows hdb hchk]
      simp
    · rw [simhash_deduplication_of_dup hf env s rows hdb hchk] at h
      simp at h

/-- A stored row within the 60-day window and within Hamming distance 6
makes the cross-run check fire. -/
lemma check_duplicate_of_mem (h : Nat) (now : Int) (rows : List DBRow) (r : DBRow)
    (hdb : Nat) (hr : r ∈ rows) (hh : r.job_hash = some hdb)
    (hdate : now - 60 ≤ r.dateScraped) (hdist : hamming_distance h hdb ≤ 6) :
    check_duplicate_in_database h now rows = true := by
  unfold check_duplicate_in_database
  rw [List.any_eq_true]
  refine ⟨r, List.mem_filter.mpr ⟨hr, by simp [hh, hdate]⟩, by simp [hh, hdist]⟩

/-- With every windowed stored fingerprint strictly farther than 6 bits, the
cross-run check stays silent. -/
lemma check_duplicate_eq_false (h : Nat) (now : Int) (rows : List DBRow)
    (hall : ∀ r ∈ rows, r.job_hash.isSome = true → now - 60 ≤ r.dateScraped →
      6 < hamming_distance h (r.job_hash.getD 0)) :
    check_duplicate_in_database h now rows = false := by
  unfold check_duplicate_in_database
  rw [List.any_eq_false]
  intro r hrf
  rcases List.mem_filter.mp hrf with ⟨hr, hcond⟩
  rw [Bool.and_eq_true] at hcond
  have h2 : now - 60 ≤ r.dateScraped := of_decide_eq_true hcond.2
  have h3 := hall r hr hcond.1 h2
  simp
  omega

/-- The dedup stage reads only the store fields of the environment. -/
lemma simhash_deduplication_congr (hf : String → Nat) (env1 env2 : Env) (s : PipelineState)
    (h1 : env1.dbOpen = env2.dbOpen) (h2 : env1.now = env2.now) :
    simhash_deduplication hf env1 s = simhash_deduplication hf env2 s := by
  unfold simhash_deduplication
  rw [h1, h2]

/-- The extraction stage reads only its own client and outcome fields. -/
lemma skills_extraction_congr (env1 env2 : Env) (s : PipelineState)
    (h1 : env1.extractClient = env2.extractClient)
    (h2 : env1.extractOutcome = env2.extractOutcome) :
    skills_extraction env1 s = skills_extraction env2 s := by
  unfold skills_extraction
  rw [h1, h2]

/-- The matching stage reads only its own client and outcome fields. -/
lemma skills_matching_congr (env1 env2 : Env) (s : PipelineState)
    (h1 : env1.matchClient = env2.matchClient)
    (h2 : env1.matchOutcome = env2.matchOutcome) :
    skills_matching env1 s = skills_matching env2 s := by
  unfold skills_matching
  rw [h1, h2]

/-- The scoring stage reads only its client, the resume flag and the raw
completion. -/
lemma job_scoring_congr (env1 env2 : Env) (s : PipelineState)
    (h1 : env1.scoreClient = env2.scoreClient)
    (h2 : env1.resumeExists = env2.resumeExists)
    (h3 : env1.scoringResult = env2.scoringResult) :
    job_scoring env1 s = job_scoring env2 s := by
  unfold job_scoring
  rw [h1, h2, h3]

/-- The save stage reads only the save-time store oracle. -/
lemma save_job_congr (env1 env2 : Env) (s : PipelineState)
    (h1 : env1.saveDbExc = env2.saveDbExc) :
    save_job env1 s = save_job env2 s := by
  unfold save_job
  rw [h1]

/-- C2: a stored fingerprint within the 60-day window and within Hamming
distance 6 of the candidate makes the dedup stage flag the posting
duplicate and stop it; the pipeline then ends at the dedup node, skill
extraction never runs (the final state carries no extracted skills and the
whole run is invariant under the extraction oracle), and the batch result
status is duplicate. Conversely, with no windowed stored fingerprint within
distance 6, the cross-run check reports false and the posting is not
flagged. -/
theorem c2_cross_run_dedup (hf : String → Nat) (env : Env) (jd : JobData) (m : Int) (th : ℚ) :
    (∀ rows r hdb, env.dbOpen = Except.ok rows → r ∈ rows → r.job_hash = some hdb →
      env.now - 60 ≤ r.dateScraped →
      hamming_distance (compute_simhash hf jd) hdb ≤ 6 →
      (afterDedup hf env jd).is_duplicate = true
      ∧ (afterDedup hf env jd).should_continue = false
      ∧ run_pipeline hf env jd = (afterDedup hf env jd, SaveOutcome.notReached)
      ∧ (run_pipeline hf env jd).1.extracted_skills = none
      ∧ (format_result (run_pipeline hf env jd).1 m th).status = "duplicate"
      ∧ (∀ c o, run_pipeline hf { env with extractClient := c, extractOutcome := o } jd
            = run_pipeline hf env jd))
    ∧ (∀ rows, env.dbOpen = Except.ok rows →
        (∀ r ∈ rows, r.job_hash.isSome = true → env.now - 60 ≤ r.dateScraped →
          6 < hamming_distance (compute_simhash hf jd) (r.job_hash.getD 0)) →
        check_duplicate_in_database (compute_simhash hf jd) env.now rows = false
        ∧ (afterDedup hf env jd).is_duplicate = false) := by
  constructor
  · intro rows r hdb hdbo hr hh hdate hdist
    have hchk : check_duplicate_in_database (compute_simhash hf (initState jd).job_data)
        env.now rows = true :=
      check_duplicate_of_mem _ _ _ r hdb hr hh hdate hdist
    have hded := simhash_deduplication_of_dup hf env (initState jd) rows hdbo hchk
    have hdup : (afterDedup hf env jd).is_duplicate = true := by
      unfold afterDedup
      rw [hded]
    have hrun : run_pipeline hf env jd = (afterDedup hf env jd, SaveOutcome.notReached) := by
      simp [run_pipeline, hdup]
    refine ⟨hdup, by unfold afterDedup; rw [hded], hrun, ?_, ?_, ?_⟩
    · rw [hrun]
      unfold afterDedup
      rw [hded]
      rfl
    · rw [hrun]
      simp [format_result, hdup]
    · intro c o
      have hAD : afterDedup hf { env with extractClient := c, extractOutcome := o } jd
          = afterDedup hf env jd := by
        unfold afterDedup
        exact simhash_deduplication_congr hf _ env (initState jd) rfl rfl
      simp [run_pipeline, hAD, hdup]
  · intro rows hdbo hall
    have hchk : check_duplicate_in_database (compute_simhash hf jd) env.now rows = false :=
      check_duplicate_eq_false _ _ _ hall
    refine ⟨hchk, ?_⟩
    unfold afterDedup
    rw [simhash_deduplication_of_new hf env (initState jd) rows hdbo hchk]

/-- Stored row whose fingerprint matches the concrete job exactly. -/
def cRowNear : DBRow := ⟨some 5, 0⟩

/-- Environment whose store holds one near fingerprint. -/
def cEnvDbDup : Env := { cEnvBase with dbOpen := Except.ok [cRowNear] }

/-- Environment whose store holds only a far fingerprint. -/
def cEnvDbFar : Env := { cEnvBase with dbOpen := Except.ok [⟨some 1018, 0⟩] }

/-- C2 witness: a stored in-window fingerprint at distance 0 flags the
concrete job duplicate with status duplicate, and a store holding only a
10-bit-distant fingerprint does not flag it. -/
theorem c2_witness :
    cEnvDbDup.dbOpen = Except.ok [cRowNear]
    ∧ cRowNear.job_hash = some 5
    ∧ cEnvDbDup.now - 60 ≤ cRowNear.dateScraped
    ∧ hamming_distance (compute_simhash cHf cJd) 5 ≤ 6
    ∧ ((afterDedup cHf cEnvDbDup cJd).is_duplicate = true
      ∧ (afterDedup cHf cEnvDbDup cJd).should_continue = false)
    ∧ (format_result (run_pipeline cHf cEnvDbDup cJd).1 0 0).status = "duplicate"
    ∧ (afterDedup cHf cEnvDbFar cJd).is_duplicate = false := by
  have h1 := (c2_cross_run_dedup cHf cEnvDbDup cJd 0 0).1 [cRowNear] cRowNear 5
    rfl (by decide) rfl (by decide) (by decide)
  have h2 := (c2_cross_run_dedup cHf cEnvDbFar cJd 0 0).2 [⟨some 1018, 0⟩] rfl (by decide)
  exact ⟨rfl, rfl, by decide, by decide, ⟨h1.1, h1.2.1⟩, h1.2.2.2.2.1, h2.2⟩

/-- With no extracted skills the matching stage writes the empty match
result and score 0 and touches nothing else. -/
lemma skills_matching_empty (env : Env) (s : PipelineState)
    (hc : s.should_continue = true) (he : s.extracted_skills.getD [] = []) :
    skills_matching env s =
      { s with match_result := some emptyMatch, heuristic_score := some 0 } := by
  simp [skills_matching, hc, he]

/-- C8: a state reaching the matching stage with an empty extracted-skills
list (also the one produced when the extraction fallback degrades malformed
model JSON to an empty list) gets the empty MatchResult and heuristic score
0.0, with no model call (the result is invariant under the matching oracle),
no error and an unchanged continuation flag. -/
theorem c8_empty_skills_degrade (env : Env) (s : PipelineState) :
    (s.should_continue = true → s.extracted_skills.getD [] = [] →
      skills_matching env s =
        { s with match_result := some emptyMatch, heuristic_score := some 0 }
      ∧ (∀ c o, skills_matching { env with matchClient := c, matchOutcome := o } s
          = skills_matching env s))
    ∧ (s.should_continue = true → 100 ≤ s.job_data.description.length →
      env.extractClient = true → env.extractOutcome = LLMOutcome.parseFail →
      skills_extraction env s = { s with extracted_skills := some [] }
      ∧ (skills_matching env (skills_extraction env s)).match_result = some emptyMatch
      ∧ (skills_matching env (skills_extraction env s)).heuristic_score = some 0
      ∧ (skills_matching env (skills_extraction env s)).error = s.error
      ∧ (skills_matching env (skills_extraction env s)).should_continue = true) := by
  constructor
  · intro hc he
    refine ⟨skills_matching_empty env s hc he, fun c o => ?_⟩
    rw [skills_matching_empty env s hc he,
      skills_matching_empty { env with matchClient := c, matchOutcome := o } s hc he]
  · intro hc hlen hcl ho
    have hext : skills_extraction env s = { s with extracted_skills := some [] } := by
      unfold skills_extraction
      rw [if_neg (by simp [hc]), if_neg (by omega), if_neg (by simp [hcl]), ho]
    have hc2 : (skills_extraction env s).should_continue = true := by
      rw [hext]; exact hc
    have hge : (skills_extraction env s).extracted_skills.getD [] = [] := by
      rw [hext]; rfl
    have hmatch := skills_matching_empty env (skills_extraction env s) hc2 hge
    refine ⟨hext, by rw [hmatch], by rw [hmatch], ?_, ?_⟩
    · rw [hmatch, hext]
    · rw [hmatch, hext]; exact hc

/-- Long-description concrete job (120 characters). -/
def cJdLong : JobData := { cJd with description := String.mk (List.replicate 120 'x') }

/-- Environment whose extraction fallback degrades to an empty list. -/
def cEnvParseFail : Env := { cEnvBase with extractOutcome := LLMOutcome.parseFail }

/-- C8 witness: the degraded-extraction path evaluated on a 120-character
description gives empty skills, the empty match result, heuristic 0 and a
still-continuing error-free state. -/
theorem c8_witness :
    (initState cJdLong).should_continue = true
    ∧ 100 ≤ (initState cJdLong).job_data.description.length
    ∧ cEnvParseFail.extractClient = true
    ∧ cEnvParseFail.extractOutcome = LLMOutcome.parseFail
    ∧ (skills_extraction cEnvParseFail (initState cJdLong)
        = { initState cJdLong with extracted_skills := some [] }
      ∧ (skills_matching cEnvParseFail (skills_extraction cEnvParseFail (initState cJdLong))).match_result
          = some emptyMatch
      ∧ (skills_matching cEnvParseFail (skills_extraction cEnvParseFail (initState cJdLong))).heuristic_score
          = some 0
      ∧ (skills_matching cEnvParseFail (skills_extraction cEnvParseFail (initState cJdLong))).error
          = (initState cJdLong).error
      ∧ (skills_matching cEnvParseFail (skills_extraction cEnvParseFail (initState cJdLong))).should_continue
          = true) :=
  ⟨rfl, by decide, rfl, rfl,
   (c8_empty_skills_degrade cEnvParseFail (initState cJdLong)).2 rfl (by decide) rfl rfl⟩

/-- From the invariant, a continuing state carries no error. -/
lemma error_none_of_inv (s : PipelineState)
    (h : s.error.isSome = true → s.should_continue = false)
    (hc : s.should_continue = true) : s.error = none := by
  rcases he : s.error with _ | v
  · rfl
  · have h2 := h (by rw [he]; rfl)
    rw [h2] at hc
    cases hc

/-- The extraction stage preserves the error-implies-stopped invariant. -/
lemma inv_skills_extraction (env : Env) (s : PipelineState)
    (h : s.error.isSome = true → s.should_continue = false) :
    (skills_extraction env s).error.isSome = true →
      (skills_extraction env s).should_continue = false := by
  by_cases hc : s.should_continue = true
  · have herr := error_none_of_inv s h hc
    unfold skills_extraction
    rw [if_neg (by simp [hc])]
    split_ifs
    · simp [herr]
    · simp
    · rcases ho : env.extractOutcome <;> simp [herr]
  · rw [skills_extraction_skip env s (by revert hc; cases s.should_continue <;> simp)]
    exact h

/-- The matching stage preserves the error-implies-stopped invariant. -/
lemma inv_skills_matching (env : Env) (s : PipelineState)
    (h : s.error.isSome = true → s.should_continue = false) :
    (skills_matching env s).error.isSome = true →
      (skills_matching env s).should_continue = false := by
  by_cases hc : s.should_continue = true
  · have herr := error_none_of_inv s h hc
    unfold skills_matching
    rw [if_neg (by simp [hc])]
    split_ifs
    · simp [herr]
    · simp
    · rcases ho : env.matchOutcome <;> simp [herr]
  · rw [skills_matching_skip env s (by revert hc; cases s.should_continue <;> simp)]
    exact h

/-- The gate preserves the error-implies-stopped invariant. -/
lemma inv_heuristic_filter (s : PipelineState)
    (h : s.error.isSome = true → s.should_continue = false) :
    (heuristic_filter s).error.isSome = true →
      (heuristic_filter s).should_continue = false := by
  by_cases hc : s.should_continue = true
  · have herr := error_none_of_inv s h hc
    unfold heuristic_filter
    rw [if_neg (by simp [hc])]
    split_ifs <;> simp [herr]
  · rw [heuristic_filter_skip s (by revert hc; cases s.should_continue <;> simp)]
    exact h

/-- The scoring stage preserves the error-implies-stopped invariant. -/
lemma inv_job_scoring (env : Env) (s : PipelineState)
    (h : s.error.isSome = true → s.should_continue = false) :
    (job_scoring env s).error.isSome = true →
      (job_scoring env s).should_continue = false := by
  by_cases hc : s.should_continue = true
  · have herr := error_none_of_inv s h hc
    unfold job_scoring
    rw [if_neg (by simp [hc])]
    split_ifs
    · simp
    · simp
    · rcases ho : env.scoringResult <;> simp [herr]
  · rw [job_scoring_skip env s (by revert hc; cases s.should_continue <;> simp)]
    exact h

/-- The dedup stage establishes the error-implies-stopped invariant from
the fresh initial state. -/
lemma inv_afterDedup (hf : String → Nat) (env : Env) (jd : JobData) :
    (afterDedup hf env jd).error.isSome = true →
      (afterDedup hf env jd).should_continue = false := by
  unfold afterDedup
  rcases hdb : env.dbOpen with e | rows
  · rw [simhash_deduplication_of_exc hf env (initState jd) e hdb]
    simp
  · cases hchk : check_duplicate_in_database (compute_simhash hf (initState jd).job_data)
        env.now rows
    · rw [simhash_deduplication_of_new hf env (initState jd) rows hdb hchk]
      simp [initState]
    · rw [simhash_deduplication_of_dup hf env (initState jd) rows hdb hchk]
      simp

/-- The state part of the save stage is the identity on every path. -/
lemma save_job_fst (env : Env) (s : PipelineState) : (save_job env s).1 = s := by
  unfold save_job
  rcases hl : s.llm_score with _ | sc
  · rfl
  · dsimp only
    split_ifs
    · rfl
    · rcases he : env.saveDbExc <;> rfl

/-- C9: along any run from a fresh initial state, every stage output in
which the error field is set has its continuation flag false; conversely a
detected store duplicate stops the pipeline with no error, and a
heuristic-gate rejection of an error-free continuing state stops it with no
error. -/
theorem c9_error_forces_stop (hf : String → Nat) (env : Env) (jd : JobData) :
    (((afterDedup hf env jd).error.isSome = true →
        (afterDedup hf env jd).should_continue = false)
      ∧ ((afterExtraction hf env jd).error.isSome = true →
        (afterExtraction hf env jd).should_continue = false)
      ∧ ((afterMatching hf env jd).error.isSome = true →
        (afterMatching hf env jd).should_continue = false)
      ∧ ((afterFilter hf env jd).error.isSome = true →
        (afterFilter hf env jd).should_continue = false)
      ∧ ((afterScoring hf env jd).error.isSome = true →
        (afterScoring hf env jd).should_continue = false)
      ∧ ((run_pipeline hf env jd).1.error.isSome = true →
        (run_pipeline hf env jd).1.should_continue = false))
    ∧ ((afterDedup hf env jd).is_duplicate = true →
        (afterDedup hf env jd).error = none
        ∧ (afterDedup hf env jd).should_continue = false)
    ∧ ((afterMatching hf env jd).should_continue = true →
        (afterMatching hf env jd).heuristic_score.getD 0 < jd.heuristic_threshold →
        (afterFilter hf env jd).error = none
        ∧ (afterFilter hf env jd).should_continue = false) := by
  have i1 := inv_afterDedup hf env jd
  have i2 := inv_skills_extraction env _ i1
  have i3 := inv_skills_matching env _ i2
  have i4 := inv_heuristic_filter _ i3
  have i5 := inv_job_scoring env _ i4
  refine ⟨⟨i1, i2, i3, i4, i5, ?_⟩, ?_, ?_⟩
  · unfold run_pipeline
    split_ifs with h1 h2
    · exact i1
    · rw [save_job_fst]
      exact i5
    · exact i4
  · intro hdup
    unfold afterDedup at hdup ⊢
    rcases hdb : env.dbOpen with e | rows
    · rw [simhash_deduplication_of_exc hf env (initState jd) e hdb] at hdup
      simp [initState] at hdup
    · cases hchk : check_duplicate_in_database (compute_simhash hf (initState jd).job_data)
          env.now rows
      · rw [simhash_deduplication_of_new hf env (initState jd) rows hdb hchk] at hdup
        simp at hdup
      · rw [simhash_deduplication_of_dup hf env (initState jd) rows hdb hchk]
        exact ⟨rfl, rfl⟩
  · intro hc3 hlt
    have hjd : (afterMatching hf env jd).job_data = jd := by
      unfold afterMatching afterExtraction afterDedup
      rw [(skills_matching_preserve env _).1, (skills_extraction_preserve env _).1,
        (simhash_deduplication_preserve hf env _).1]
      rfl
    have herr3 := error_none_of_inv _ i3 hc3
    have hfil : afterFilter hf env jd =
        { afterMatching hf env jd with should_continue := false } := by
      unfold afterFilter heuristic_filter
      rw [if_neg (by simp [hc3]), if_pos (by rw [hjd]; exact hlt)]
    rw [hfil]
    exact ⟨herr3, rfl⟩

/-- Environment whose scoring completion call raises. -/
def cEnvScoreFail : Env := { cEnvBase with scoringResult := Except.error "boom" }

/-- C9 witness: a scoring-stage exception leaves an error with continuation
false, and the invariant applied to a store-duplicate run shows a
false-continuation state with no error. -/
theorem c9_witness :
    (afterScoring cHf cEnvScoreFail cJd).error.isSome = true
    ∧ (afterScoring cHf cEnvScoreFail cJd).should_continue = false
    ∧ (afterDedup cHf cEnvDbDup cJd).is_duplicate = true
    ∧ ((afterDedup cHf cEnvDbDup cJd).error = none
      ∧ (afterDedup cHf cEnvDbDup cJd).should_continue = false) :=
  ⟨by decide,
   (c9_error_forces_stop cHf cEnvScoreFail cJd).1.2.2.2.2.1 (by decide),
   by decide,
   (c9_error_forces_stop cHf cEnvDbDup cJd).2.1 (by decide)⟩

/-- C10: the save stage returns its state unchanged on every path (so it
never sets an error and never flips the continuation flag), a save-time
store exception leaves the state and the formatted BatchResult exactly as a
successful save would, and the final state of a whole pipeline run does not
depend on the save-time store oracle at all: a failed save is invisible in
the batch output. -/
theorem c10_save_failure_invisible (env : Env) (s : PipelineState) (m : Int) (th : ℚ)
    (x : Option String) :
    (save_job env s).1 = s
    ∧ (save_job { env with saveDbExc := x } s).1 = (save_job env s).1
    ∧ format_result (save_job { env with saveDbExc := some "store failure" } s).1 m th
        = format_result (save_job env s).1 m th
    ∧ (∀ hf jd, (run_pipeline hf { env with saveDbExc := x } jd).1
        = (run_pipeline hf env jd).1) := by
  refine ⟨save_job_fst env s, by rw [save_job_fst, save_job_fst],
    by rw [save_job_fst, save_job_fst], ?_⟩
  intro hf jd
  have hD : afterDedup hf { env with saveDbExc := x } jd = afterDedup hf env jd := by
    unfold afterDedup
    exact simhash_deduplication_congr hf _ env _ rfl rfl
  have hE : afterExtraction hf { env with saveDbExc := x } jd = afterExtraction hf env jd := by
    unfold afterExtraction
    rw [hD]
    exact skills_extraction_congr _ env _ rfl rfl
  have hM : afterMatching hf { env with saveDbExc := x } jd = afterMatching hf env jd := by
    unfold afterMatching
    rw [hE]
    exact skills_matching_congr _ env _ rfl rfl
  have hF : afterFilter hf { env with saveDbExc := x } jd = afterFilter hf env jd := by
    unfold afterFilter
    rw [hM]
  have hS : afterScoring hf { env with saveDbExc := x } jd = afterScoring hf env jd := by
    unfold afterScoring
    rw [hF]
    exact job_scoring_congr _ env _ rfl rfl rfl
  unfold run_pipeline
  rw [hD, hF, hS]
  split_ifs <;> simp [save_job_fst]

/-- C6: for a posting that passes the gate and obtains relevance score sc
with no error, the final state is the scoring output; with sc at or above
the job's minimum score the save stage hands the built record to the store
upsert and the batch result is accepted, while with sc below the minimum
nothing is persisted and the batch result is low_score; in both cases the
reported scores are the pipeline-computed ones. -/
theorem c6_min_score_split (hf : String → Nat) (env : Env) (jd : JobData) (sc : Int)
    (hgate : (afterFilter hf env jd).should_continue = true)
    (herr : (afterScoring hf env jd).error = none)
    (hsc : (afterScoring hf env jd).llm_score = some sc)
    (hsave : env.saveDbExc = none) :
    (run_pipeline hf env jd).1 = afterScoring hf env jd
    ∧ (jd.min_score ≤ sc →
        (run_pipeline hf env jd).2 = SaveOutcome.saved (mkJobRecord (afterScoring hf env jd))
        ∧ (format_result (run_pipeline hf env jd).1 jd.min_score jd.heuristic_threshold).status
            = "accepted")
    ∧ (sc < jd.min_score →
        (run_pipeline hf env jd).2 = SaveOutcome.skipped
        ∧ (format_result (run_pipeline hf env jd).1 jd.min_score jd.heuristic_threshold).status
            = "low_score")
    ∧ (format_result (run_pipeline hf env jd).1 jd.min_score jd.heuristic_threshold).llm_score
        = sc
    ∧ (format_result (run_pipeline hf env jd).1 jd.min_score jd.heuristic_threshold).heuristic_score
        = (afterScoring hf env jd).heuristic_score.getD 0 := by
  have hfc := heuristic_filter_cont (afterMatching hf env jd) hgate
  have hm_cont : (afterMatching hf env jd).should_continue = true := hfc.1
  have he_cont : (afterExtraction hf env jd).should_continue = true :=
    skills_matching_cont env _ hm_cont
  have hd_cont : (afterDedup hf env jd).should_continue = true :=
    skills_extraction_cont env _ he_cont
  have hdup : (afterDedup hf env jd).is_duplicate = false :=
    (simhash_deduplication_cont hf env _ hd_cont).1
  have hrun1 : run_pipeline hf env jd = save_job env (afterScoring hf env jd) := by
    unfold run_pipeline
    rw [if_neg (by simp [hdup]), if_pos hgate]
  have hjd3 : (afterMatching hf env jd).job_data = jd := by
    unfold afterMatching afterExtraction afterDedup
    rw [(skills_matching_preserve env _).1, (skills_extraction_preserve env _).1,
      (simhash_deduplication_preserve hf env _).1]
    rfl
  have hjd5 : (afterScoring hf env jd).job_data = jd := by
    unfold afterScoring afterFilter
    rw [(job_scoring_preserve env _).1, (heuristic_filter_preserve _).1]
    exact hjd3
  have hdup5 : (afterScoring hf env jd).is_duplicate = false := by
    unfold afterScoring afterFilter afterMatching afterExtraction
    rw [(job_scoring_preserve env _).2.2.1, (heuristic_filter_preserve _).2.2.1,
      (skills_matching_preserve env _).2.2.1, (skills_extraction_preserve env _).2.2.1]
    exact hdup
  have hs5 : (afterScoring hf env jd).heuristic_score
      = (afterMatching hf env jd).heuristic_score := by
    unfold afterScoring afterFilter
    rw [(job_scoring_preserve env _).2.2.2.2.2, (heuristic_filter_preserve _).2.2.2.2.2.1]
  have hnl : ¬ ((afterScoring hf env jd).heuristic_score.getD 0 < jd.heuristic_threshold) := by
    rw [hs5]
    rw [hjd3] at hfc
    exact hfc.2.1
  have hfst : (run_pipeline hf env jd).1 = afterScoring hf env jd := by
    rw [hrun1, save_job_fst]
  refine ⟨hfst, ?_, ?_, ?_, ?_⟩
  · intro hmin
    constructor
    · rw [hrun1]
      unfold save_job
      rw [hsc]
      dsimp only
      rw [if_neg (by rw [hjd5]; omega), hsave]
    · rw [hfst]
      have : ¬ ((afterScoring hf env jd).llm_score.getD 0 < jd.min_score) := by
        rw [hsc]; simp; omega
      simp [format_result, hdup5, herr, hnl, this]
  · intro hmin
    constructor
    · rw [hrun1]
      unfold save_job
      rw [hsc]
      dsimp only
      rw [if_pos (by rw [hjd5]; omega)]
    · rw [hfst]
      have : (afterScoring hf env jd).llm_score.getD 0 < jd.min_score := by
        rw [hsc]; simpa using hmin
      simp [format_result, hdup5, herr, hnl, this]
  · rw [hfst]
    simp [format_result, hsc]
  · rw [hfst]
    simp [format_result]

/-- The concrete job with minimum score 10 instead of 0. -/
def cJd10 : JobData := { cJd with min_score := 10 }

/-- C6 witness: the concrete score-9 run is saved and accepted under
min_score 0, and skipped with status low_score under min_score 10, both
reporting relevance score 9. -/
theorem c6_witness :
    ((afterFilter cHf cEnvBase cJd).should_continue = true
      ∧ (afterScoring cHf cEnvBase cJd).error = none
      ∧ (afterScoring cHf cEnvBase cJd).llm_score = some 9
      ∧ cEnvBase.saveDbExc = none)
    ∧ ((run_pipeline cHf cEnvBase cJd).2
          = SaveOutcome.saved (mkJobRecord (afterScoring cHf cEnvBase cJd))
      ∧ (format_result (run_pipeline cHf cEnvBase cJd).1 cJd.min_score
          cJd.heuristic_threshold).status = "accepted")
    ∧ ((run_pipeline cHf cEnvBase cJd10).2 = SaveOutcome.skipped
      ∧ (format_result (run_pipeline cHf cEnvBase cJd10).1 cJd10.min_score
          cJd10.heuristic_threshold).status = "low_score")
    ∧ (format_result (run_pipeline cHf cEnvBase cJd).1 cJd.min_score
        cJd.heuristic_threshold).llm_score = 9
    ∧ (format_result (run_pipeline cHf cEnvBase cJd10).1 cJd10.min_score
        cJd10.heuristic_threshold).llm_score = 9 :=
  ⟨⟨by decide, by decide, by decide, rfl⟩,
   (c6_min_score_split cHf cEnvBase cJd 9 (by decide) (by decide) (by decide) rfl).2.1
     (by decide),
   (c6_min_score_split cHf cEnvBase cJd10 9 (by decide) (by decide) (by decide) rfl).2.2.1
     (by decide),
   (c6_min_score_split cHf cEnvBase cJd 9 (by decide) (by decide) (by decide) rfl).2.2.2.1,
   (c6_min_score_split cHf cEnvBase cJd10 9 (by decide) (by decide) (by decide) rfl).2.2.2.1⟩

/-- Chunking the empty list yields no chunks at any fuel. -/
lemma chunkedF_nil {α : Type} (f size : Nat) : chunkedF f size ([] : List α) = [] := by
  cases f <;> simp [chunkedF]

/-- The fuel of chunkedF is irrelevant once it bounds the list length. -/
lemma chunkedF_congr {α : Type} (size : Nat) :
    ∀ (f1 f2 : Nat) (xs : List α), xs.length ≤ f1 → xs.length ≤ f2 →
      chunkedF f1 size xs = chunkedF f2 size xs := by
  intro f1
  induction f1 with
  | zero =>
    intro f2 xs h1 h2
    have hx : xs = [] := List.eq_nil_of_length_eq_zero (Nat.le_zero.mp h1)
    subst hx
    rw [chunkedF_nil, chunkedF_nil]
  | succ f ih =>
    intro f2 xs h1 h2
    cases f2 with
    | zero =>
      have hx : xs = [] := List.eq_nil_of_length_eq_zero (Nat.le_zero.mp h2)
      subst hx
      rw [chunkedF_nil, chunkedF_nil]
    | succ f2 =>
      by_cases hc : size = 0 ∨ xs.isEmpty
      · simp only [chunkedF]
        rw [if_pos hc, if_pos hc]
      · simp only [chunkedF, if_neg hc]
        rcases not_or.mp hc with ⟨h0, hne⟩
        have hxe : xs ≠ [] := fun he => hne (by rw [he]; rfl)
        have hpos := List.length_pos.mpr hxe
        congr 1
        apply ih
        · rw [List.length_drop]; omega
        · rw [List.length_drop]; omega

/-- One-step unfolding of chunked on a nonempty list with positive size. -/
lemma chunked_cons {α : Type} (size : Nat) (xs : List α) (h0 : size ≠ 0) (hne : xs ≠ []) :
    chunked size xs = xs.take size :: chunked size (xs.drop size) := by
  have hpos := List.length_pos.mpr hne
  have hlen : xs.length = (xs.length - 1) + 1 := by omega
  unfold chunked
  rw [hlen]
  simp only [chunkedF]
  rw [if_neg (by simp [h0, hne])]
  congr 1
  apply chunkedF_congr
  · rw [List.length_drop]; omega
  · exact le_rfl

/-- The claimed-fingerprint set after the first pass over a chunk agrees
with the sequential reference pass. -/
lemma markDuplicates_fst_eq (hf : String → Nat) (m : Int) (th : ℚ) :
    ∀ (chunk : List (JobData × Env)) (seen : List Nat),
      (markDuplicates hf m th seen chunk).1 = (processSeq hf m th seen chunk).1 := by
  intro chunk
  induction chunk with
  | nil => intro seen; rfl
  | cons je rest ih =>
    intro seen
    by_cases hmem : compute_simhash hf (setParams m th je.1) ∈ seen
    · simp only [markDuplicates, processSeq, processJobSpec, if_pos hmem]
      exact ih seen
    · simp only [markDuplicates, processSeq, processJobSpec, if_neg hmem]
      exact ih _

/-- Mapping the task runner over the position-indexed entries of a chunk
gives exactly the sequential reference results. -/
lemma markDuplicates_map_eq (hf : String → Nat) (m : Int) (th : ℚ) :
    ∀ (chunk : List (JobData × Env)) (seen : List Nat),
      (markDuplicates hf m th seen chunk).2.map (runEntry hf m th)
        = (processSeq hf m th seen chunk).2 := by
  intro chunk
  induction chunk with
  | nil => intro seen; rfl
  | cons je rest ih =>
    intro seen
    by_cases hmem : compute_simhash hf (setParams m th je.1) ∈ seen
    · simp only [markDuplicates, processSeq, processJobSpec, if_pos hmem, List.map_cons]
      rw [ih seen]
      rfl
    · simp only [markDuplicates, processSeq, processJobSpec, if_neg hmem, List.map_cons]
      rw [ih _]
      rfl

/-- A chunk processed through the two-pass executor equals the sequential
reference processing of the same jobs. -/
lemma processChunk_eq_seq (hf : String → Nat) (m : Int) (th : ℚ)
    (chunk : List (JobData × Env)) (seen : List Nat) :
    processChunk hf m th seen chunk = processSeq hf m th seen chunk := by
  unfold processChunk
  rw [markDuplicates_fst_eq hf m th chunk seen, markDuplicates_map_eq hf m th chunk seen]

/-- Sequential processing of an appended list splits into the two parts,
threading the claimed-fingerprint set. -/
lemma processSeq_append (hf : String → Nat) (m : Int) (th : ℚ) :
    ∀ (l1 l2 : List (JobData × Env)) (seen : List Nat),
      processSeq hf m th seen (l1 ++ l2)
        = ((processSeq hf m th (processSeq hf m th seen l1).1 l2).1,
           (processSeq hf m th seen l1).2
             ++ (processSeq hf m th (processSeq hf m th seen l1).1 l2).2) := by
  intro l1
  induction l1 with
  | nil => intro l2 seen; simp [processSeq]
  | cons je rest ih =>
    intro l2 seen
    simp only [List.cons_append, processSeq]
    rw [List.append_eq, ih]

/-- The chunked concurrent executor computes exactly the sequential
reference results, for any positive batch size. -/
lemma processChunks_chunked (hf : String → Nat) (m : Int) (th : ℚ) (bs : Nat)
    (hbs : 1 ≤ bs) :
    ∀ (n : Nat) (jobs : List (JobData × Env)) (seen : List Nat), jobs.length ≤ n →
      processChunks hf m th seen (chunked bs jobs) = (processSeq hf m th seen jobs).2 := by
  intro n
  induction n with
  | zero =>
    intro jobs seen h
    have hx : jobs = [] := List.eq_nil_of_length_eq_zero (Nat.le_zero.mp h)
    subst hx
    rfl
  | succ n ih =>
    intro jobs seen h
    by_cases hjobs : jobs = []
    · subst hjobs; rfl
    · have hpos := List.length_pos.mpr hjobs
      rw [chunked_cons bs jobs (by omega) hjobs]
      have hstep : processChunks hf m th seen (jobs.take bs :: chunked bs (jobs.drop bs))
          = (processChunk hf m th seen (jobs.take bs)).2
            ++ processChunks hf m th (processChunk hf m th seen (jobs.take bs)).1
                (chunked bs (jobs.drop bs)) := rfl
      rw [hstep, processChunk_eq_seq,
        ih (jobs.drop bs) (processSeq hf m th seen (jobs.take bs)).1
          (by rw [List.length_drop]; omega)]
      have happ := processSeq_append hf m th (jobs.take bs) (jobs.drop bs) seen
      rw [List.take_append_drop] at happ
      rw [happ]

/-- process_batch on a nonempty job list with positive batch size returns
ok of the sequential reference results. -/
lemma process_batch_eq_spec (hf : String → Nat) (jobs : List (JobData × Env)) (m : Int)
    (bs : Nat) (th : ℚ) (hne : jobs ≠ []) (hbs : 1 ≤ bs) :
    process_batch hf jobs m bs th = Except.ok (process_batch_spec hf jobs m th) := by
  unfold process_batch process_batch_spec
  rw [if_neg (by simp [hne])]
  rw [processChunks_chunked hf m th bs hbs jobs.length jobs [] le_rfl]

/-- The sequential reference pass produces one result per job. -/
lemma processSeq_length (hf : String → Nat) (m : Int) (th : ℚ) :
    ∀ (jobs : List (JobData × Env)) (seen : List Nat),
      (processSeq hf m th seen jobs).2.length = jobs.length := by
  intro jobs
  induction jobs with
  | nil => intro seen; rfl
  | cons je rest ih => intro seen; simp only [processSeq, List.length_cons, ih]

/-- The j-th sequential result is the reference step applied to the j-th job
with the fingerprint set claimed by the jobs before it. -/
lemma processSeq_get (hf : String → Nat) (m : Int) (th : ℚ) :
    ∀ (jobs : List (JobData × Env)) (seen : List Nat) (j : Nat) (je : JobData × Env),
      jobs[j]? = some je →
        (processSeq hf m th seen jobs).2[j]? =
          some ((processJobSpec hf m th (processSeq hf m th seen (jobs.take j)).1 je).2) := by
  intro jobs
  induction jobs with
  | nil => intro seen j je h; simp at h
  | cons je0 rest ih =>
    intro seen j je h
    cases j with
    | zero =>
      rw [List.getElem?_cons_zero] at h
      injection h with h
      subst h
      simp [processSeq]
    | succ j =>
      rw [List.getElem?_cons_succ] at h
      have hstep : (processSeq hf m th seen (je0 :: rest)).2[j + 1]?
          = (processSeq hf m th (processJobSpec hf m th seen je0).1 rest).2[j]? := by
        simp only [processSeq, List.getElem?_cons_succ]
      rw [hstep, ih (processJobSpec hf m th seen je0).1 j je h, List.take_succ_cons]
      simp only [processSeq]

/-- The fingerprints claimed after a sequential pass are the initial ones
plus the fingerprints of the processed jobs. -/
lemma processSeq_seen_mem (hf : String → Nat) (m : Int) (th : ℚ) :
    ∀ (jobs : List (JobData × Env)) (seen : List Nat) (x : Nat),
      x ∈ (processSeq hf m th seen jobs).1 ↔
        x ∈ seen ∨ ∃ je ∈ jobs, compute_simhash hf (setParams m th je.1) = x := by
  intro jobs
  induction jobs with
  | nil => intro seen x; simp [processSeq]
  | cons je rest ih =>
    intro seen x
    by_cases hmem : compute_simhash hf (setParams m th je.1) ∈ seen
    · have hstep : (processSeq hf m th seen (je :: rest)).1
          = (processSeq hf m th seen rest).1 := by
        simp only [processSeq, processJobSpec, if_pos hmem]
      rw [hstep, ih]
      simp only [List.mem_cons]
      constructor
      · rintro (h | ⟨je2, hje2, hx⟩)
        · exact Or.inl h
        · exact Or.inr ⟨je2, Or.inr hje2, hx⟩
      · rintro (h | ⟨je2, hje2 | hje2, hx⟩)
        · exact Or.inl h
        · subst hje2; rw [← hx]; exact Or.inl hmem
        · exact Or.inr ⟨je2, hje2, hx⟩
    · have hstep : (processSeq hf m th seen (je :: rest)).1
          = (processSeq hf m th (compute_simhash hf (setParams m th je.1) :: seen) rest).1 := by
        simp only [processSeq, processJobSpec, if_neg hmem]
      rw [hstep, ih]
      simp only [List.mem_cons]
      constructor
      · rintro ((h | h) | ⟨je2, hje2, hx⟩)
        · exact Or.inr ⟨je, Or.inl rfl, h.symm⟩
        · exact Or.inl h
        · exact Or.inr ⟨je2, Or.inr hje2, hx⟩
      · rintro (h | ⟨je2, hje2 | hje2, hx⟩)
        · exact Or.inl (Or.inr h)
        · subst hje2; exact Or.inl (Or.inl hx.symm)
        · exact Or.inr ⟨je2, hje2, hx⟩

/-- Bulkhead isolation of the sequential reference pass: with the same
postings, the claimed-fingerprint set is the same, and the j-th result
depends only on the j-th job's own environment. -/
lemma processSeq_env_congr (hf : String → Nat) (m : Int) (th : ℚ) :
    ∀ (l1 l2 : List (JobData × Env)) (seen : List Nat),
      l1.map Prod.fst = l2.map Prod.fst →
        (processSeq hf m th seen l1).1 = (processSeq hf m th seen l2).1
        ∧ ∀ j : Nat, (l1[j]?).map Prod.snd = (l2[j]?).map Prod.snd →
            (processSeq hf m th seen l1).2[j]? = (processSeq hf m th seen l2).2[j]? := by
  intro l1
  induction l1 with
  | nil =>
    intro l2 seen hmap
    have hl2 : l2 = [] := by
      cases l2 with
      | nil => rfl
      | cons a b => simp at hmap
    subst hl2
    exact ⟨rfl, fun j _ => rfl⟩
  | cons je rest ih =>
    intro l2 seen hmap
    cases l2 with
    | nil => simp at hmap
    | cons je2 rest2 =>
      simp only [List.map_cons, List.cons.injEq] at hmap
      obtain ⟨hfst, hrest⟩ := hmap
      have hhash : compute_simhash hf (setParams m th je.1)
          = compute_simhash hf (setParams m th je2.1) := by rw [hfst]
      by_cases hmem : compute_simhash hf (setParams m th je.1) ∈ seen
      · have hmem2 : compute_simhash hf (setParams m th je2.1) ∈ seen := by
          rw [← hhash]; exact hmem
        have ihr := ih rest2 seen hrest
        constructor
        · simp only [processSeq, processJobSpec, if_pos hmem, if_pos hmem2]
          exact ihr.1
        · intro j hj
          cases j with
          | zero =>
            simp only [processSeq, processJobSpec, if_pos hmem, if_pos hmem2,
              List.getElem?_cons_zero]
          | succ j =>
            have h1 : (processSeq hf m th seen (je :: rest)).2[j + 1]?
                = (processSeq hf m th seen rest).2[j]? := by
              simp only [processSeq, processJobSpec, if_pos hmem, List.getElem?_cons_succ]
            have h2 : (processSeq hf m th seen (je2 :: rest2)).2[j + 1]?
                = (processSeq hf m th seen rest2).2[j]? := by
              simp only [processSeq, processJobSpec, if_pos hmem2, List.getElem?_cons_succ]
            rw [h1, h2]
            apply ihr.2
            simpa only [List.getElem?_cons_succ] using hj
      · have hmem2 : compute_simhash hf (setParams m th je2.1) ∉ seen := by
          rw [← hhash]; exact hmem
        have ihr := ih rest2 (compute_simhash hf (setParams m th je.1) :: seen) hrest
        have hseen2 : compute_simhash hf (setParams m th je2.1) :: seen
            = compute_simhash hf (setParams m th je.1) :: seen := by rw [hhash]
        constructor
        · simp only [processSeq, processJobSpec, if_neg hmem, if_neg hmem2, hseen2]
          exact ihr.1
        · intro j hj
          cases j with
          | zero =>
            simp only [List.getElem?_cons_zero, Option.map_some'] at hj
            injection hj with hj
            simp only [processSeq, processJobSpec, if_neg hmem, if_neg hmem2,
              List.getElem?_cons_zero, hfst, hj]
          | succ j =>
            have h1 : (processSeq hf m th seen (je :: rest)).2[j + 1]?
                = (processSeq hf m th
                    (compute_simhash hf (setParams m th je.1) :: seen) rest).2[j]? := by
              simp only [processSeq, processJobSpec, if_neg hmem, List.getElem?_cons_succ]
            have h2 : (processSeq hf m th seen (je2 :: rest2)).2[j + 1]?
                = (processSeq hf m th
                    (compute_simhash hf (setParams m th je.1) :: seen) rest2).2[j]? := by
              simp only [processSeq, processJobSpec, if_neg hmem2, List.getElem?_cons_succ,
                hseen2]
            rw [h1, h2]
            apply ihr.2
            simpa only [List.getElem?_cons_succ] using hj

/-- C1 counterexample: on the empty posting list process_batch does not
return a list of results at all: the summary logging divides the elapsed
time by len(jobs) and raises ZeroDivisionError. -/
theorem c1_counterexample :
    process_batch cHf ([] : List (JobData × Env)) 0 1 0
      = Except.error "ZeroDivisionError: float division by zero" := rfl

/-- C1 amended: for every nonempty input list and batch_size at least 1,
process_batch returns ok of exactly one result per posting, equal to the
sequential in-input-order reference processing (so the i-th result belongs
to the i-th posting regardless of completion order); a task-level exception
of a non-duplicate posting becomes the error result at that posting's
position; and the j-th result depends only on the posting list and the j-th
posting's own environment, so one posting's failure cannot affect its
siblings. -/
theorem c1_batch_order_amended (hf : String → Nat) (jobs : List (JobData × Env)) (m : Int)
    (bs : Nat) (th : ℚ) (hne : jobs ≠ []) (hbs : 1 ≤ bs) :
    process_batch hf jobs m bs th = Except.ok (process_batch_spec hf jobs m th)
    ∧ (process_batch_spec hf jobs m th).length = jobs.length
    ∧ (∀ (i : Nat) (jd : JobData) (env : Env) (e : String),
        jobs[i]? = some (jd, env) → env.taskExc = some e →
        compute_simhash hf (setParams m th jd) ∉ (processSeq hf m th [] (jobs.take i)).1 →
        (process_batch_spec hf jobs m th)[i]? = some (taskErrorResult e))
    ∧ (∀ (jobs2 : List (JobData × Env)) (j : Nat),
        jobs.map Prod.fst = jobs2.map Prod.fst →
        (jobs[j]?).map Prod.snd = (jobs2[j]?).map Prod.snd →
        (process_batch_spec hf jobs m th)[j]? = (process_batch_spec hf jobs2 m th)[j]?) := by
  refine ⟨process_batch_eq_spec hf jobs m bs th hne hbs,
    processSeq_length hf m th jobs [], ?_, ?_⟩
  · intro i jd env e hi htask hnot
    unfold process_batch_spec
    rw [processSeq_get hf m th jobs [] i (jd, env) hi]
    have hstep : processJobSpec hf m th (processSeq hf m th [] (jobs.take i)).1 (jd, env)
        = (compute_simhash hf (setParams m th jd) :: (processSeq hf m th [] (jobs.take i)).1,
           pipelineResult hf m th (setParams m th jd) env) := by
      simp only [processJobSpec, if_neg hnot]
    rw [hstep]
    unfold pipelineResult
    rw [htask]
  · intro jobs2 j hmap hj
    unfold process_batch_spec
    exact (processSeq_env_congr hf m th jobs jobs2 [] hmap).2 j hj

/-- Environment whose whole workflow task raises. -/
def cEnvTaskExc : Env := { cEnvBase with taskExc := some "boom" }

/-- C1 witness: a singleton batch whose only task raises yields ok with one
error result carrying the exception text at position 0. -/
theorem c1_witness :
    ([(cJd, cEnvTaskExc)] ≠ ([] : List (JobData × Env)))
    ∧ 1 ≤ 1
    ∧ process_batch cHf [(cJd, cEnvTaskExc)] 0 1 0
        = Except.ok (process_batch_spec cHf [(cJd, cEnvTaskExc)] 0 0)
    ∧ (process_batch_spec cHf [(cJd, cEnvTaskExc)] 0 0).length = 1
    ∧ (process_batch_spec cHf [(cJd, cEnvTaskExc)] 0 0)[0]? = some (taskErrorResult "boom") :=
  ⟨by decide, le_rfl,
   (c1_batch_order_amended cHf [(cJd, cEnvTaskExc)] 0 1 0 (by decide) le_rfl).1,
   (c1_batch_order_amended cHf [(cJd, cEnvTaskExc)] 0 1 0 (by decide) le_rfl).2.1,
   (c1_batch_order_amended cHf [(cJd, cEnvTaskExc)] 0 1 0 (by decide) le_rfl).2.2.1 0 cJd
     cEnvTaskExc "boom" rfl rfl (by decide)⟩

/-- C3: within one process_batch call, a posting whose fingerprint is
exactly equal to the fingerprint of an earlier posting of the same call gets
the literal in-batch duplicate result (status duplicate, reason Duplicate in
current batch) at its position, whatever its environment holds — the
pipeline is never invoked for it; conversely a posting whose fingerprint
differs from every earlier posting's fingerprint is dispatched and its
position holds its own task's result. -/
theorem c3_in_batch_exact_dup (hf : String → Nat) (m : Int) (th : ℚ) (bs : Nat)
    (jobs : List (JobData × Env)) (i j : Nat) (jdi : JobData) (envi : Env)
    (jdj : JobData) (envj : Env) (rs : List BatchResult)
    (hbs : 1 ≤ bs) (hij : i < j)
    (hi : jobs[i]? = some (jdi, envi)) (hj : jobs[j]? = some (jdj, envj))
    (hok : process_batch hf jobs m bs th = Except.ok rs) :
    (compute_simhash hf (setParams m th jdi) = compute_simhash hf (setParams m th jdj) →
      rs[j]? = some batchDuplicateResult)
    ∧ ((∀ (k : Nat) (jdk : JobData) (envk : Env), k < j → jobs[k]? = some (jdk, envk) →
        compute_simhash hf (setParams m th jdk) ≠ compute_simhash hf (setParams m th jdj)) →
      rs[j]? = some (pipelineResult hf m th (setParams m th jdj) envj)) := by
  have hjlen : j < jobs.length := by
    rcases List.getElem?_eq_some.mp hj with ⟨hl, _⟩
    exact hl
  have hne : jobs ≠ [] := by
    intro he
    rw [he] at hjlen
    simp at hjlen
  have hspec := process_batch_eq_spec hf jobs m bs th hne hbs
  rw [hspec] at hok
  injection hok with hok
  subst hok
  have hget := processSeq_get hf m th jobs [] j (jdj, envj) hj
  constructor
  · intro heq
    have hmem : compute_simhash hf (setParams m th jdj)
        ∈ (processSeq hf m th [] (jobs.take j)).1 := by
      rw [processSeq_seen_mem]
      right
      refine ⟨(jdi, envi), ?_, heq⟩
      apply List.mem_iff_getElem?.mpr
      refine ⟨i, ?_⟩
      rw [List.getElem?_take, if_pos hij]
      exact hi
    unfold process_batch_spec
    rw [hget]
    simp only [processJobSpec, if_pos hmem]
  · intro hall
    have hmem : compute_simhash hf (setParams m th jdj)
        ∉ (processSeq hf m th [] (jobs.take j)).1 := by
      rw [processSeq_seen_mem]
      rintro (h | ⟨⟨jek, envk⟩, hje, hx⟩)
      · simp at h
      · rcases List.mem_iff_getElem?.mp hje with ⟨k, hk⟩
        have hklen : k < (jobs.take j).length := by
          rcases List.getElem?_eq_some.mp hk with ⟨hl, _⟩
          exact hl
        have hkj : k < j := by
          rw [List.length_take] at hklen
          omega
        rw [List.getElem?_take, if_pos hkj] at hk
        exact hall k jek envk hkj hk hx
    unfold process_batch_spec
    rw [hget]
    simp only [processJobSpec, if_neg hmem]

/-- C3 witness: two postings with the same fingerprint in one call; the
second position holds the literal in-batch duplicate result even though its
own environment would make its pipeline fail. -/
theorem c3_witness :
    0 < 1
    ∧ [(cJd, cEnvBase), (cJd, cEnvScoreFail)][0]? = some (cJd, cEnvBase)
    ∧ [(cJd, cEnvBase), (cJd, cEnvScoreFail)][1]? = some (cJd, cEnvScoreFail)
    ∧ compute_simhash cHf (setParams 0 0 cJd) = compute_simhash cHf (setParams 0 0 cJd)
    ∧ (process_batch_spec cHf [(cJd, cEnvBase), (cJd, cEnvScoreFail)] 0 0)[1]?
        = some batchDuplicateResult :=
  ⟨by decide, by decide, by decide, rfl,
   (c3_in_batch_exact_dup cHf 0 0 1 [(cJd, cEnvBase), (cJd, cEnvScoreFail)] 0 1 cJd cEnvBase
      cJd cEnvScoreFail (process_batch_spec cHf [(cJd, cEnvBase), (cJd, cEnvScoreFail)] 0 0)
      le_rfl (by decide) (by decide) (by decide)
      (process_batch_eq_spec cHf [(cJd, cEnvBase), (cJd, cEnvScoreFail)] 0 1 0
        (by decide) le_rfl)).1 rfl⟩
